import Mathlib

/-!
Verification development for the tmd-viewer server (src/server.rs).

The Rust server code is shallowly embedded here: each Lean definition is a
direct translation of the corresponding Rust function (names are kept where
Lean allows).  SQLite storage is modelled as explicit lists of rows, machine
integers as Int, panics (Rust unwrap on None/Err) as the none case of an
Option result, and spawned background loops as pure state-transition
functions with an explicit fuel for the unbounded loop.
-/

namespace TmdViewer

/-! ## Basic string helpers -/

/-- Rust to_ascii_lowercase: lowercases ASCII letters only (Char.toLower is
exactly the ASCII lowering). -/
def asciiLower (s : String) : String := String.mk (s.data.map Char.toLower)

/-- Numeric value of a list of decimal digit characters. -/
def digitsVal (cs : List Char) : Nat :=
  cs.foldl (fun a c => a * 10 + (c.toNat - 48)) 0

/-- Match an exact literal at the head of the character list; return the rest. -/
def dropExact : List Char → List Char → Option (List Char)
  | [], s => some s
  | _ :: _, [] => none
  | p :: ps, c :: cs => if p = c then dropExact ps cs else none

/-- Split a maximal non-empty run of characters satisfying p from the head. -/
def takeRun1 (p : Char → Bool) (cs : List Char) : Option (List Char × List Char) :=
  match cs.takeWhile p with
  | [] => none
  | t => some (t, cs.dropWhile p)

/-! ## Timestamp parsing: str_to_timestamp (server.rs lines 195-203)

The Rust code parses the fixed chrono format "%Y/%m/%d %H:%M:%S" into a
NaiveDateTime and converts it at a fixed offset:
FixedOffset::east(offset).from_local_datetime(dt).timestamp()
which equals (seconds of the local datetime since the epoch) - offset.
The embedding parses the zero-padded "YYYY/MM/DD HH:MM:SS" layout the
Twitter exports use and computes the epoch seconds with proleptic
Gregorian day arithmetic (years from 1). -/

def isLeapYear (y : Nat) : Bool :=
  (y % 4 == 0 && y % 100 != 0) || (y % 400 == 0)

def daysInMonth (y m : Nat) : Nat :=
  if m == 2 then (if isLeapYear y then 29 else 28)
  else if m == 4 || m == 6 || m == 9 || m == 11 then 30
  else 31

/-- Days from 0001-01-01 to the start of year y (proleptic Gregorian). -/
def daysBeforeYear (y : Nat) : Nat :=
  let py := y - 1
  py * 365 + py / 4 - py / 100 + py / 400

/-- Days from the start of year y to the start of month m (1-based). -/
def daysBeforeMonth (y m : Nat) : Nat :=
  (List.range (m - 1)).foldl (fun a i => a + daysInMonth y (i + 1)) 0

/-- Days between 1970-01-01 and the given civil date (may be negative). -/
def toEpochDays (y m d : Nat) : Int :=
  (daysBeforeYear y + daysBeforeMonth y m + (d - 1) : Int) - 719162

def twoDigits : List Char → Option (Nat × List Char)
  | a :: b :: rest =>
      if a.isDigit && b.isDigit then some (digitsVal [a, b], rest) else none
  | _ => none

def fourDigits : List Char → Option (Nat × List Char)
  | a :: b :: c :: d :: rest =>
      if a.isDigit && b.isDigit && c.isDigit && d.isDigit then
        some (digitsVal [a, b, c, d], rest)
      else none
  | _ => none

def expectChar (c : Char) : List Char → Option (List Char)
  | x :: rest => if x = c then some rest else none
  | [] => none

/-- Parse "YYYY/MM/DD HH:MM:SS" into its six numeric fields, requiring the
whole string to be consumed and the fields to form a valid date-time. -/
def parseDateTime (s : String) : Option (Nat × Nat × Nat × Nat × Nat × Nat) := do
  let cs := s.data
  let (y, cs) ← fourDigits cs
  let cs ← expectChar '/' cs
  let (mo, cs) ← twoDigits cs
  let cs ← expectChar '/' cs
  let (d, cs) ← twoDigits cs
  let cs ← expectChar ' ' cs
  let (h, cs) ← twoDigits cs
  let cs ← expectChar ':' cs
  let (mi, cs) ← twoDigits cs
  let cs ← expectChar ':' cs
  let (se, cs) ← twoDigits cs
  if cs.isEmpty && 1 ≤ mo && mo ≤ 12 && 1 ≤ d && d ≤ daysInMonth y mo &&
      h ≤ 23 && mi ≤ 59 && se ≤ 59 && 1 ≤ y then
    some (y, mo, d, h, mi, se)
  else
    none

/-- server.rs str_to_timestamp: parse the fixed format, then
FixedOffset::east(offset).from_local_datetime(..).timestamp(). -/
def str_to_timestamp (value : String) (offset : Int) : Option Int :=
  match parseDateTime value with
  | none => none
  | some (y, mo, d, h, mi, se) =>
      some (toEpochDays y mo d * 86400 + (h : Int) * 3600 + (mi : Int) * 60 + (se : Int)
        - offset)

/-! ## Feed id extraction (process_csv_record, server.rs lines 1301-1316)

TWITTER_URL_REGEX is
  ^https?://(?:(?:mobile)\.)?twitter\.com/([a-zA-Z0-9_]+)/status/([0-9]+)
and the second capture (the maximal digit run after /status/) is parsed with
str::parse::<i64>(); a parse failure (overflow) drops the row like a
non-matching URL. -/

def isWordChar (c : Char) : Bool := c.isAlpha || c.isDigit || c == '_'

def I64_MAX : Int := 9223372036854775807
def I64_MIN : Int := -9223372036854775808

def extractFeedId (url : String) : Option Int := do
  let cs := url.data
  let cs ← dropExact "http".data cs
  let cs := match cs with
            | 's' :: rest => rest
            | other => other
  let cs ← dropExact "://".data cs
  let cs := match dropExact "mobile.".data cs with
            | some rest => rest
            | none => cs
  let cs ← dropExact "twitter.com/".data cs
  let (_, cs) ← takeRun1 isWordChar cs
  let cs ← dropExact "/status/".data cs
  let (ds, _) ← takeRun1 Char.isDigit cs
  let n : Int := (digitsVal ds : Int)
  if n ≤ I64_MAX then some n else none

/-! ## Data model (server.rs Media struct, feeds/media tables) -/

/-- One row of the feeds table
(feed_id, user_name, retweet_id, retweet_user_name, feed_at, twitter_url, contents).
contents is nullable: the retweet insert statement omits the contents column. -/
structure FeedRow where
  feed_id : Int
  user_name : String
  retweet_id : Int
  retweet_user_name : String
  feed_at : Int
  twitter_url : String
  contents : Option String
deriving DecidableEq, Repr

/-- One row of the media table. thumbnail is a nullable blob, deleted_at a
nullable timestamp (the soft-delete marker). -/
structure MediaRow where
  feed_id : Int
  media_id : Int
  media_type : String
  media_url : String
  file_path : String
  media_path : String
  thumbnail : Option (List Nat)
  deleted_at : Option Int
deriving DecidableEq, Repr

/-- The feed store: the feeds and media tables, each as a list of rows in
insertion order. -/
structure Db where
  feeds : List FeedRow
  media : List MediaRow
deriving DecidableEq, Repr

def emptyDb : Db := ⟨[], []⟩

/-- One deserialized CSV record (FeedCsvRecord, server.rs lines 91-106);
only the fields the reconciler reads are kept. -/
structure FeedCsvRecord where
  feed_date : String
  action_date : String
  user_name : String
  twitter_url : String
  media_type : String
  media_url : String
  media_file_path : String
  content : String
deriving DecidableEq, Repr

/-! ## Insert statements -/

/-- Is a feeds row with this feed_id present? -/
def hasFeedKey (feeds : List FeedRow) (k : Int) : Bool :=
  feeds.any (fun r => r.feed_id == k)

/-- Modelled from the spec: create_table_feeds.sql is not under src/; §6
gives the feeds table layout as feeds(feed_id PK, ...), so INSERT OR IGNORE
(both the insert_feed and the insert_retweet statement target the feeds
table) silently drops a row whose feed_id is already present. -/
def feedsInsert (feeds : List FeedRow) (r : FeedRow) : List FeedRow :=
  if hasFeedKey feeds r.feed_id then feeds else feeds ++ [r]

/-- Count of media rows with the given feed_id. -/
def countFid (media : List MediaRow) (fid : Int) : Nat :=
  (media.filter (fun m => m.feed_id == fid)).length

/-- The media_id value computed by the insert_media statement
(server.rs lines 1226-1257): the CTE numbers the rows of this feed_id with
ROW_NUMBER() OVER (ORDER BY media_id DESC) and keeps the largest row number,
which is the row count; IFNULL(.., 0) + 1 then yields count + 1. -/
def nextMediaId (media : List MediaRow) (fid : Int) : Int :=
  (countFid media fid : Int) + 1

/-- Modelled from the spec: create_table_media.sql / its index files are not
under src/; §6 gives media(..., PK(feed_id, media_id)), so the OR IGNORE of
the insert_media statement drops a row colliding on (feed_id, media_id). -/
def mediaHasKey (media : List MediaRow) (fid mid : Int) : Bool :=
  media.any (fun m => m.feed_id == fid && m.media_id == mid)

/-- insert_media (server.rs lines 1423-1449) executing the statement of
lines 1226-1257: insert with media_id = nextMediaId, OR IGNORE on the key. -/
def insert_media (media : List MediaRow) (fid : Int)
    (mtype murl fpath mpath : String) : List MediaRow :=
  let mid := nextMediaId media fid
  if mediaHasKey media fid mid then media
  else media ++ [⟨fid, mid, mtype, murl, fpath, mpath, none, none⟩]

/-! ## The reconciler: process_csv_record (server.rs lines 1290-1366)

A row's feed_id comes from the URL regex; rows without one are dropped.
With a feed_id:
  - action_date parses  -> insert_feed (feed_at = feed_date.unwrap()!) then
    insert_retweet (feed_id 0, user_name = origin, retweet_id = id,
    retweet_user_name = row user lowercased, feed_at = action_date);
  - otherwise           -> insert_feed only (feed_at = feed_date.unwrap()!).
Both branches call feed_at.unwrap(): when feed_date does not parse the Rust
thread panics; the embedding returns none for that panic.
Finally, when media_url and media_file_path are both non-empty, one media
row is inserted. -/

def process_csv_record (rec : FeedCsvRecord) (origin zip_path : String)
    (time_offset : Int) (db : Db) : Option Db :=
  match extractFeedId rec.twitter_url with
  | none => some db
  | some id =>
      let feed_at := str_to_timestamp rec.feed_date time_offset
      let action_at := str_to_timestamp rec.action_date time_offset
      match feed_at with
      | none => none
      | some fat =>
          let feeds1 :=
            match action_at with
            | some aat =>
                feedsInsert
                  (feedsInsert db.feeds
                    ⟨id, asciiLower rec.user_name, 0, "", fat, rec.twitter_url,
                      some rec.content⟩)
                  ⟨0, origin, id, asciiLower rec.user_name, aat, rec.twitter_url, none⟩
            | none =>
                feedsInsert db.feeds
                  ⟨id, asciiLower rec.user_name, 0, "", fat, rec.twitter_url,
                    some rec.content⟩
          let media1 :=
            if !rec.media_url.data.isEmpty && !rec.media_file_path.data.isEmpty then
              insert_media db.media id rec.media_type rec.media_url zip_path
                rec.media_file_path
            else db.media
          some ⟨feeds1, media1⟩

/-! ## process_csv (server.rs lines 1197-1288)

Streams the CSV records in order, counting every record (deserialization
errors included, modelled as none); record 3's action_date (ASCII-lowercased)
becomes the origin; records 7 onward are processed. A panic inside
process_csv_record aborts the whole entry (none). -/

def processCsvGo : List (Option FeedCsvRecord) → Nat → String → String → Int →
    Db → Option Db
  | [], _, _, _, _, db => some db
  | none :: rest, count, origin, zip_path, off, db =>
      processCsvGo rest (count + 1) origin zip_path off db
  | some rec :: rest, count, origin, zip_path, off, db =>
      if count + 1 > 6 then
        match process_csv_record rec
            (if count + 1 = 3 then asciiLower rec.action_date else origin)
            zip_path off db with
        | none => none
        | some db' =>
            processCsvGo rest (count + 1)
              (if count + 1 = 3 then asciiLower rec.action_date else origin)
              zip_path off db'
      else
        processCsvGo rest (count + 1)
          (if count + 1 = 3 then asciiLower rec.action_date else origin)
          zip_path off db

/-- process_csv for one CSV entry inside its own transaction (scan_file,
server.rs lines 1185-1191): commit on success; on a panic the transaction is
dropped uncommitted and rolls back, leaving the database as before the
entry, and the panic unwinds further. -/
def scanEntry (trecords : List (Option FeedCsvRecord)) (zip_path : String)
    (time_offset : Int) (db : Db) : Db × Bool :=
  match processCsvGo trecords 0 "" zip_path time_offset db with
  | some db' => (db', false)
  | none => (db, true)

/-- All CSV entries of one archive, each in its own transaction; the Bool
marks that a panic unwound out of the archive scan. -/
def scanEntries (entries : List (List (Option FeedCsvRecord))) (zip_path : String)
    (time_offset : Int) (db : Db) : Db × Bool :=
  match entries with
  | [] => (db, false)
  | e :: rest =>
      match scanEntry e zip_path time_offset db with
      | (db', false) => scanEntries rest zip_path time_offset db'
      | (db', true) => (db', true)

/-! ## Archive catalog rows and the scan loop (server.rs lines 1135-1195)

The files table rows carry nullable scan markers; the claims only use
whether each marker is set, so they are modelled as Booleans. -/

structure FileRow where
  file_path : String
  scan_started : Bool
  scan_ended : Bool
deriving DecidableEq, Repr

/-- The state a scan loop iteration touches: the files table, the feed
store, and the shared Governor counter (AppState.scanner_count). -/
structure ScanState where
  files : List FileRow
  db : Db
  scanner_count : Int
deriving DecidableEq, Repr

/-- How a background loop ended: normal exit through the None branch (which
decrements the counter), a panic that unwound the thread, or fuel
exhaustion of the embedding (never reached with enough fuel). -/
inductive LoopExit
  | normal
  | panicked
  | fuelOut
deriving DecidableEq, Repr

def markStarted (files : List FileRow) (path : String) : List FileRow :=
  files.map (fun f => if f.file_path == path then ⟨f.file_path, true, f.scan_ended⟩ else f)

def markEnded (files : List FileRow) (path : String) : List FileRow :=
  files.map (fun f => if f.file_path == path then ⟨f.file_path, f.scan_started, true⟩ else f)

/-- The background loop spawned by scan_files (server.rs lines 1135-1170)
together with scan_file (lines 1172-1195). Each iteration picks one file
with scan_started unset; if none is left it decrements scanner_count and
exits. Otherwise it sets scan_started and runs scan_file, which unwraps
File::open and ZipArchive::new — an archive that cannot be opened
(openArch returns none) panics the thread, ending the loop with neither
scan_ended nor the decrement. A panic inside an entry likewise unwinds the
loop after the entry's rollback. On success scan_ended is set and the loop
repeats. -/
def scanLoop (openArch : String → Option (List (List (Option FeedCsvRecord))))
    (time_offset : Int) : Nat → ScanState → ScanState × LoopExit
  | 0, st => (st, LoopExit.fuelOut)
  | fuel + 1, st =>
      match st.files.find? (fun f => !f.scan_started) with
      | none => (⟨st.files, st.db, st.scanner_count - 1⟩, LoopExit.normal)
      | some fr =>
          match openArch fr.file_path with
          | none =>
              (⟨markStarted st.files fr.file_path, st.db, st.scanner_count⟩,
                LoopExit.panicked)
          | some entries =>
              match scanEntries entries fr.file_path time_offset st.db with
              | (db', false) =>
                  scanLoop openArch time_offset fuel
                    ⟨markEnded (markStarted st.files fr.file_path) fr.file_path,
                      db', st.scanner_count⟩
              | (db', true) =>
                  (⟨markStarted st.files fr.file_path, db', st.scanner_count⟩,
                    LoopExit.panicked)

/-! ## Concurrency Governor (scan_service lines 1113-1133,
generate_thumbnails_service lines 785-803, loop exits lines 845-847 and
1164-1167) -/

def DEFAULT_SCANNER_COUNT_LIMIT : Int := 2

/-- The shared counter with its fixed limit. -/
structure Governor where
  count : Int
  limit : Int
deriving DecidableEq, Repr

inductive StartResult
  | accepted
  | rejected
deriving DecidableEq, Repr

/-- The common guard of scan_service and generate_thumbnails_service:
reject with TooManyRequests when count >= limit, else increment and accept. -/
def tryStart (g : Governor) : StartResult × Governor :=
  if g.limit ≤ g.count then (StartResult.rejected, g)
  else (StartResult.accepted, ⟨g.count + 1, g.limit⟩)

/-- The decrement a background loop performs in its None branch when its
queue is empty. -/
def finishLoop (g : Governor) : Governor := ⟨g.count - 1, g.limit⟩

/-! ## Query façade: keyword escaping and SQLite LIKE
(escape_like_char/escape_like_str lines 219-263, get_feeds_query lines
265-291, keyword binding in feeds_service lines 337-345) -/

/-- escape_like_char: only the percent sign is escaped, to backslash-percent. -/
def escape_like_char (c : Char) : Option (List Char) :=
  if c = '%' then some ['\\', '%'] else none

/-- escape_like_str, extensionally: every character is replaced by its
escape when it has one (the Rust Cow borrowing is an allocation detail). -/
def escape_like_str (cs : List Char) : List Char :=
  cs.flatMap (fun c => match escape_like_char c with
    | some e => e
    | none => [c])

/-- The SQLite LIKE operator with no ESCAPE clause, as the get_feeds_query
string uses it ("f.contents LIKE :keyword" carries no ESCAPE): percent
matches any character sequence, underscore any single character, every
other pattern character only itself up to ASCII case; a backslash is an
ordinary character. Fuel-based so the kernel can evaluate it; pattern
length + string length + 1 fuel always suffices. -/
def likeMatchF : Nat → List Char → List Char → Bool
  | 0, _, _ => false
  | fuel + 1, ps, s =>
      match ps, s with
      | [], rest => rest.isEmpty
      | '%' :: ps', rest =>
          likeMatchF fuel ps' rest ||
            (match rest with
             | [] => false
             | _ :: rest' => likeMatchF fuel ('%' :: ps') rest')
      | '_' :: ps', _ :: rest' => likeMatchF fuel ps' rest'
      | '_' :: _, [] => false
      | p :: ps', c :: rest' => p.toLower == c.toLower && likeMatchF fuel ps' rest'
      | _ :: _, [] => false

def likeMatch (ps s : List Char) : Bool :=
  likeMatchF (ps.length + s.length + 1) ps s

/-- The bound :keyword value built in feeds_service:
"%" + escape_like_str(keyword) + "%". -/
def keywordPattern (kw : List Char) : List Char :=
  '%' :: escape_like_str kw ++ ['%']

/-- Whether the keyword predicate of get_feeds_query keeps a feeds row:
f.contents LIKE :keyword (NULL contents fails the predicate). -/
def keywordKeeps (kw : List Char) (contents : Option String) : Bool :=
  match contents with
  | some c => likeMatch (keywordPattern kw) c.data
  | none => false

/-- The rows the keyword filter of listFeeds retains. -/
def keywordFilterFeeds (feeds : List FeedRow) (kw : List Char) : List FeedRow :=
  feeds.filter (fun f => keywordKeeps kw f.contents)

/-- Literal substring containment (the specification's reading of the
keyword filter): needle occurs verbatim in hay. -/
def listStartsWith : List Char → List Char → Bool
  | _, [] => true
  | [], _ :: _ => false
  | c :: hs, n :: ns => c == n && listStartsWith hs ns

def listHasSub (hay needle : List Char) : Bool :=
  match hay with
  | [] => needle.isEmpty
  | _ :: t => listStartsWith hay needle || listHasSub t needle

/-! ## Media endpoints (media_file_service lines 527-597,
media_preview_service lines 599-661, get_media lines 663-696,
generate_thumbnail_blob lines 929-968)

The archive is an oracle from (file_path, media_path) to the entry bytes
(extract_zip_file returning Some/None); image decoding and jpeg re-encoding
are oracles over an abstract image type. generate_thumbnail_blob calls
decode().unwrap(): a decode failure panics. update_media_thumbnail is
modelled as succeeding (no storage failure). -/

inductive HttpOut
  | ok (body : List Nat)
  | notFound
  | panicked
deriving DecidableEq, Repr

/-- Rust str::parse::<i64>: optional sign, one or more digits, i64 range. -/
def parseI64 (s : String) : Option Int :=
  let cs := s.data
  let signed : Int × List Char :=
    match cs with
    | '+' :: rest => (1, rest)
    | '-' :: rest => (-1, rest)
    | other => (1, other)
  let ds := signed.2
  if ds.isEmpty then none
  else if ds.all Char.isDigit then
    let v : Int := signed.1 * (digitsVal ds : Int)
    if I64_MIN ≤ v && v ≤ I64_MAX then some v else none
  else none

/-- SELECT ... FROM media WHERE feed_id = :feed_id AND media_id = :media_id
LIMIT 1 (row order unspecified; modelled as the first list match). -/
def findMedia (media : List MediaRow) (fid mid : Int) : Option MediaRow :=
  media.find? (fun m => m.feed_id == fid && m.media_id == mid)

/-- media_file_service: parse both path parameters, look the row up, extract
the archive entry, serve the bytes. deleted_at is read but never checked. -/
def media_file_service (pf pm : String) (media : List MediaRow)
    (extract : String → String → Option (List Nat)) : HttpOut :=
  match parseI64 pf with
  | none => HttpOut.notFound
  | some fid =>
      match parseI64 pm with
      | none => HttpOut.notFound
      | some mid =>
          match findMedia media fid mid with
          | none => HttpOut.notFound
          | some m =>
              match extract m.file_path m.media_path with
              | some buf => HttpOut.ok buf
              | none => HttpOut.notFound

/-- media_preview_service: parse the parameters, fetch the row; only a
non-deleted Image row proceeds; a cached thumbnail is served directly;
otherwise the entry is extracted (none -> NotFound) and
generate_thumbnail_blob runs: decode().unwrap() panics when the bytes do
not decode; an encode failure leaves thumbnail unset and the final
media.thumbnail.unwrap() panics. -/
def media_preview_service {Img : Type} (pf pm : String) (media : List MediaRow)
    (extract : String → String → Option (List Nat))
    (decodeImg : List Nat → Option Img) (thumbOp : Img → Img)
    (encodeImg : Img → Option (List Nat)) : HttpOut :=
  match parseI64 pf with
  | none => HttpOut.notFound
  | some fid =>
      match parseI64 pm with
      | none => HttpOut.notFound
      | some mid =>
          match findMedia media fid mid with
          | none => HttpOut.notFound
          | some m =>
              if m.media_type == "Image" && m.deleted_at.isNone then
                match m.thumbnail with
                | some buf => HttpOut.ok buf
                | none =>
                    match extract m.file_path m.media_path with
                    | none => HttpOut.notFound
                    | some blob =>
                        match decodeImg blob with
                        | none => HttpOut.panicked
                        | some img =>
                            match encodeImg (thumbOp img) with
                            | some buf => HttpOut.ok buf
                            | none => HttpOut.panicked
              else HttpOut.notFound

/-! # Theorems -/

/-! ## C4: Governor accept/accept/reject with the default limit -/

/-- Claim C4: with the Governor limit at its default of 2 and no completion
in between, three consecutive triggers (scan or thumbnail generation share
the one scanner_count/limit pair) yield accepted, accepted, rejected; after
one loop completes and decrements, the next trigger is accepted again. -/
theorem c4_governor_triggers :
    (tryStart ⟨0, DEFAULT_SCANNER_COUNT_LIMIT⟩).1 = StartResult.accepted ∧
    (tryStart (tryStart ⟨0, DEFAULT_SCANNER_COUNT_LIMIT⟩).2).1 = StartResult.accepted ∧
    (tryStart (tryStart (tryStart ⟨0, DEFAULT_SCANNER_COUNT_LIMIT⟩).2).2).1 =
      StartResult.rejected ∧
    (tryStart (finishLoop
      (tryStart (tryStart ⟨0, DEFAULT_SCANNER_COUNT_LIMIT⟩).2).2)).1 =
      StartResult.accepted := by decide

/-! ## C5: keyword escaping does not stop the percent wildcard -/

def c5feedLiteral : FeedRow :=
  ⟨1, "@alice", 0, "", 10, "u1", some "xa%by"⟩

def c5feedBackslash : FeedRow :=
  ⟨2, "@alice", 0, "", 9, "u2", some "a\\zb"⟩

/-- Claim C5 is false on the code: the keyword "a%b" is escaped to the LIKE
pattern percent a backslash percent b percent, but the query carries no
ESCAPE clause, so SQLite treats the backslash literally and the inner
percent still as a wildcard. The feed whose contents contain the literal
"a%b" is not returned, while a feed whose contents are "a\zb" (no literal
"a%b" at all) is returned. -/
theorem c5_percent_still_wildcard :
    listHasSub "xa%by".data "a%b".data = true ∧
    keywordKeeps "a%b".data (some "xa%by") = false ∧
    listHasSub "a\\zb".data "a%b".data = false ∧
    keywordKeeps "a%b".data (some "a\\zb") = true ∧
    keywordFilterFeeds [c5feedLiteral, c5feedBackslash] "a%b".data =
      [c5feedBackslash] := by decide

/-! ## C2: a row with unparseable feed_date and valid action_date panics -/

def c2rowBad : FeedCsvRecord :=
  ⟨"not a timestamp", "2020/01/01 00:00:00", "Bob",
    "https://twitter.com/bob/status/42", "", "", "", "first"⟩

def c2rowGood : FeedCsvRecord :=
  ⟨"2020/01/02 00:00:00", "", "Carol",
    "https://twitter.com/carol/status/43", "", "", "", "second"⟩

def c2records : List (Option FeedCsvRecord) :=
  [none, none, none, none, none, none, some c2rowBad, some c2rowGood]

/-- Claim C2 is contradicted by the code: on a data row whose feed_date does
not parse while its action_date does, process_csv_record reaches
feed_at.unwrap() on None and panics (embedded as none). The panic aborts
the whole CSV entry: the following well-formed row is never processed and
the entry transaction rolls back, instead of the row being skipped with
processing continuing. -/
theorem c2_unparseable_feed_date_panics :
    str_to_timestamp c2rowBad.feed_date 0 = none ∧
    (str_to_timestamp c2rowBad.action_date 0).isSome = true ∧
    process_csv_record c2rowBad "" "a.zip" 0 emptyDb = none ∧
    processCsvGo c2records 0 "" "a.zip" 0 emptyDb = none ∧
    scanEntry c2records "a.zip" 0 emptyDb = (emptyDb, true) := by decide

/-! ## C3: a stuck archive leaks the Governor slot -/

def c3state : ScanState := ⟨[⟨"gone.zip", false, false⟩], emptyDb, 1⟩

def c3archOracle : String → Option (List (List (Option FeedCsvRecord))) :=
  fun _ => none

/-- Claim C3 is contradicted by the code: with one registered archive whose
zip cannot be opened (the oracle yields none, the File::open /
ZipArchive::new unwrap panics) and scanner_count = 1 after the accepted
trigger, the scan loop marks scan_started_at, panics, and terminates with
the counter still at 1: the worker slot is never released, while the claim
says the counter returns to its pre-trigger value 0. -/
theorem c3_stuck_archive_leaks_slot :
    scanLoop c3archOracle 0 2 c3state =
      (⟨[⟨"gone.zip", true, false⟩], emptyDb, 1⟩, LoopExit.panicked) ∧
    (scanLoop c3archOracle 0 2 c3state).1.scanner_count ≠ 0 := by decide

/-! ## C1: equal action_date and feed_date still take the retweet branch -/

def c1rec : FeedCsvRecord :=
  ⟨"2020/01/01 00:00:00", "2020/01/01 00:00:00", "Bob",
    "https://twitter.com/bob/status/42", "", "", "", "hi"⟩

/-- Claim C1 as stated is false on the code: process_csv_record only tests
action_at.is_some() and never compares it with feed_at. On a row whose
action_date parses to the same timestamp as feed_date the claim requires
exactly one plain Feed row with retweet_id = 0, but the code inserts two
rows, the second with retweet_id = 42. -/
theorem c1_counterexample :
    str_to_timestamp c1rec.action_date 0 = str_to_timestamp c1rec.feed_date 0 ∧
    (str_to_timestamp c1rec.feed_date 0).isSome = true ∧
    (process_csv_record c1rec "og" "a.zip" 0 emptyDb).map
      (fun db => db.feeds.map (fun r => r.retweet_id)) = some [0, 42] := by decide

/-! ## C7: re-scanning the same archive duplicates media rows -/

def c7rec : FeedCsvRecord :=
  ⟨"2020/01/01 00:00:00", "", "Bob", "https://twitter.com/bob/status/42",
    "Image", "http://img/x.jpg", "img/x.jpg", "hi"⟩

def c7records : List (Option FeedCsvRecord) :=
  [none, none, none, none, none, none, some c7rec]

/-- Claim C7 as stated is false on the code: the media insert assigns
media_id = (row count for the feed_id) + 1, so on the second pass over the
same archive the same media file is inserted again under media_id 2 and the
OR IGNORE finds no collision on (feed_id, media_id). The Feed set is
unchanged but the Media set grows. -/
theorem c7_counterexample :
    ((scanEntry c7records "a.zip" 0 emptyDb).1.media.map
      (fun m => (m.feed_id, m.media_id))) = [(42, 1)] ∧
    ((scanEntry c7records "a.zip" 0
        (scanEntry c7records "a.zip" 0 emptyDb).1).1.media.map
      (fun m => (m.feed_id, m.media_id))) = [(42, 1), (42, 2)] ∧
    (scanEntry c7records "a.zip" 0
        (scanEntry c7records "a.zip" 0 emptyDb).1).1 ≠
      (scanEntry c7records "a.zip" 0 emptyDb).1 := by decide

/-! ## C8: fetchMediaFile serves soft-deleted media -/

def c8rowDeleted : MediaRow :=
  ⟨1, 1, "Image", "http://img/x.jpg", "a.zip", "img/x.jpg", none, some 99⟩

def c8oracleSome : String → String → Option (List Nat) := fun _ _ => some [7]

def c8rowThumbed : MediaRow :=
  ⟨2, 1, "Image", "http://img/y.jpg", "a.zip", "img/y.jpg", some [9], none⟩

def c8oracleNone : String → String → Option (List Nat) := fun _ _ => none

/-- Claim C8 as stated is false on the code: media_file_service reads
deleted_at but never checks it, so a soft-deleted Media row whose archive
entry still exists is served with 200 rather than not-found; and
media_preview_service serves a cached thumbnail without consulting the
archive, so a row with a cached thumbnail whose archive entry is missing is
also served rather than not-found. -/
theorem c8_counterexample :
    (c8rowDeleted.deleted_at ≠ none ∧
      media_file_service "1" "1" [c8rowDeleted] c8oracleSome = HttpOut.ok [7]) ∧
    (c8oracleNone c8rowThumbed.file_path c8rowThumbed.media_path = none ∧
      @media_preview_service Unit "2" "1" [c8rowThumbed] c8oracleNone
        (fun _ => none) (fun i => i) (fun _ => none) = HttpOut.ok [9]) := by decide

/-- Claim C1 (amended): for a data row with a feed_id whose feed_date
parses, the branch is decided by action_date parsing alone — if action_date
parses (whether or not its timestamp differs from feed_date's), the
reconciler upserts the original-content Feed row (feed_at = feed_date) and
then the retweet Feed row (retweet_id = feed_id, retweet_user_name = the
row's user lowercased, user_name = the origin from row 3, feed_at =
action_date); if action_date does not parse, it upserts exactly the one
plain Feed row with retweet_id = 0. -/
theorem c1_amended_branches (rec : FeedCsvRecord) (origin zip : String) (off : Int)
    (db : Db) (id fat : Int)
    (hid : extractFeedId rec.twitter_url = some id)
    (hfeed : str_to_timestamp rec.feed_date off = some fat) :
    (∀ aat, str_to_timestamp rec.action_date off = some aat →
      (process_csv_record rec origin zip off db).map Db.feeds =
        some (feedsInsert
          (feedsInsert db.feeds
            ⟨id, asciiLower rec.user_name, 0, "", fat, rec.twitter_url, some rec.content⟩)
          ⟨0, origin, id, asciiLower rec.user_name, aat, rec.twitter_url, none⟩)) ∧
    (str_to_timestamp rec.action_date off = none →
      (process_csv_record rec origin zip off db).map Db.feeds =
        some (feedsInsert db.feeds
          ⟨id, asciiLower rec.user_name, 0, "", fat, rec.twitter_url, some rec.content⟩)) := by
  constructor
  · intro aat ha
    simp [process_csv_record, hid, hfeed, ha]
  · intro ha
    simp [process_csv_record, hid, hfeed, ha]

def c1wrec : FeedCsvRecord :=
  ⟨"2020/01/01 00:00:00", "2020/01/02 00:00:00", "Bob",
    "https://twitter.com/bob/status/42", "", "", "", "hi"⟩

/-- Witness for c1_amended_branches at a concrete retweet-branch row. -/
theorem c1_amended_witness :
    (process_csv_record c1wrec "carol" "a.zip" 0 emptyDb).map Db.feeds =
      some (feedsInsert
        (feedsInsert emptyDb.feeds
          ⟨42, asciiLower c1wrec.user_name, 0, "", 1577836800,
            c1wrec.twitter_url, some c1wrec.content⟩)
        ⟨0, "carol", 42, asciiLower c1wrec.user_name, 1577923200,
          c1wrec.twitter_url, none⟩) :=
  (c1_amended_branches c1wrec "carol" "a.zip" 0 emptyDb 42 1577836800
    (by decide) (by decide)).1 1577923200 (by decide)

/-- Claim C8 (amended): both media endpoints return not-found for a
feed_id or media_id that does not parse, for a missing Media row, and — the
file endpoint always, the preview endpoint when no thumbnail is cached —
for a missing archive entry; the preview endpoint alone also returns
not-found for a soft-deleted row (the file endpoint ignores deleted_at). -/
theorem c8_amended_notfound (Img : Type) (pf pm : String) (media : List MediaRow)
    (extract : String → String → Option (List Nat))
    (dec : List Nat → Option Img) (top : Img → Img)
    (enc : Img → Option (List Nat)) :
    (parseI64 pf = none →
      media_file_service pf pm media extract = HttpOut.notFound ∧
      media_preview_service pf pm media extract dec top enc = HttpOut.notFound) ∧
    (parseI64 pm = none →
      media_file_service pf pm media extract = HttpOut.notFound ∧
      media_preview_service pf pm media extract dec top enc = HttpOut.notFound) ∧
    (∀ fid mid, parseI64 pf = some fid → parseI64 pm = some mid →
      findMedia media fid mid = none →
      media_file_service pf pm media extract = HttpOut.notFound ∧
      media_preview_service pf pm media extract dec top enc = HttpOut.notFound) ∧
    (∀ fid mid m, parseI64 pf = some fid → parseI64 pm = some mid →
      findMedia media fid mid = some m →
      extract m.file_path m.media_path = none →
      media_file_service pf pm media extract = HttpOut.notFound ∧
      (m.thumbnail = none →
        media_preview_service pf pm media extract dec top enc = HttpOut.notFound)) ∧
    (∀ fid mid m, parseI64 pf = some fid → parseI64 pm = some mid →
      findMedia media fid mid = some m → m.deleted_at ≠ none →
      media_preview_service pf pm media extract dec top enc = HttpOut.notFound) := by
  refine ⟨?_, ?_, ?_, ?_, ?_⟩
  · intro h
    constructor <;> simp [media_file_service, media_preview_service, h]
  · intro h
    cases hf : parseI64 pf <;>
      constructor <;> simp [media_file_service, media_preview_service, h, hf]
  · intro fid mid hf hm hq
    constructor <;> simp [media_file_service, media_preview_service, hf, hm, hq]
  · intro fid mid m hf hm hq hx
    constructor
    · simp [media_file_service, hf, hm, hq, hx]
    · intro ht
      simp only [media_preview_service, hf, hm, hq, hx, ht]
      split <;> rfl
  · intro fid mid m hf hm hq hd
    have hdel : m.deleted_at.isNone = false := by
      cases hmd : m.deleted_at with
      | none => exact absurd hmd hd
      | some t => rfl
    simp [media_preview_service, hf, hm, hq, hdel]

def c8wrow : MediaRow :=
  ⟨3, 1, "Image", "http://img/z.jpg", "a.zip", "img/z.jpg", none, some 5⟩

/-- Witness for c8_amended_notfound: the preview endpoint on a soft-deleted
row returns not-found. -/
theorem c8_amended_witness :
    @media_preview_service Unit "3" "1" [c8wrow] c8oracleSome
      (fun _ => some ()) (fun i => i) (fun _ => some [1]) = HttpOut.notFound :=
  (c8_amended_notfound Unit "3" "1" [c8wrow] c8oracleSome
      (fun _ => some ()) (fun i => i) (fun _ => some [1])).2.2.2.2
    3 1 c8wrow (by decide) (by decide) (by decide) (by decide)

/-- Claim C9: when the requested Media row is a non-deleted Image with no
cached thumbnail, its archive entry yields bytes, and either the bytes fail
to decode (generate_thumbnail_blob's decode().unwrap()) or the re-encode
fails (leaving thumbnail unset before the final media.thumbnail.unwrap()),
media_preview_service terminates abnormally (panics) instead of producing
an HTTP response. -/
theorem c9_preview_panics (Img : Type) (pf pm : String) (media : List MediaRow)
    (extract : String → String → Option (List Nat))
    (dec : List Nat → Option Img) (top : Img → Img)
    (enc : Img → Option (List Nat)) (fid mid : Int) (m : MediaRow)
    (blob : List Nat)
    (hf : parseI64 pf = some fid) (hm : parseI64 pm = some mid)
    (hq : findMedia media fid mid = some m)
    (htype : m.media_type = "Image") (hdel : m.deleted_at = none)
    (hth : m.thumbnail = none)
    (hx : extract m.file_path m.media_path = some blob)
    (hfail : dec blob = none ∨
      ∃ img, dec blob = some img ∧ enc (top img) = none) :
    media_preview_service pf pm media extract dec top enc = HttpOut.panicked := by
  rcases hfail with hd | ⟨img, hd, he⟩
  · simp [media_preview_service, hf, hm, hq, htype, hdel, hth, hx, hd]
  · simp [media_preview_service, hf, hm, hq, htype, hdel, hth, hx, hd, he]

def c9wrow : MediaRow :=
  ⟨4, 1, "Image", "http://img/w.jpg", "a.zip", "img/w.jpg", none, none⟩

/-- Witness for c9_preview_panics: a concrete row whose bytes fail to
decode makes the preview handler panic. -/
theorem c9_preview_panics_witness :
    @media_preview_service Unit "4" "1" [c9wrow] c8oracleSome
      (fun _ => none) (fun i => i) (fun _ => some [1]) = HttpOut.panicked :=
  c9_preview_panics Unit "4" "1" [c9wrow] c8oracleSome
    (fun _ => none) (fun i => i) (fun _ => some [1]) 4 1 c9wrow [7]
    (by decide) (by decide) (by decide) (by decide) (by decide) (by decide)
    (by decide) (Or.inl rfl)

/-! ## C6: media numbering -/

/-- The media_id values of the rows for one feed_id, in table (= insertion)
order. -/
def mediaIdsFor (media : List MediaRow) (fid : Int) : List Int :=
  (media.filter (fun m => m.feed_id == fid)).map (fun m => m.media_id)

/-- The ids 1, 2, ..., k. -/
def idsUpTo : Nat → List Int
  | 0 => []
  | k + 1 => idsUpTo k ++ [(k : Int) + 1]

/-- The caller-supplied columns of one media insert. -/
structure MediaInput where
  media_type : String
  media_url : String
  file_path : String
  media_path : String
deriving DecidableEq, Repr

/-- N successive insert_media executions for one feed_id. -/
def insertMediaList (media : List MediaRow) (fid : Int) :
    List MediaInput → List MediaRow
  | [] => media
  | it :: rest =>
      insertMediaList
        (insert_media media fid it.media_type it.media_url it.file_path it.media_path)
        fid rest

/-- The current maximum media_id for a feed_id, 0 when none exists. -/
def maxIdFor (media : List MediaRow) (fid : Int) : Int :=
  (mediaIdsFor media fid).foldr max 0

lemma length_idsUpTo : ∀ k : Nat, (idsUpTo k).length = k
  | 0 => rfl
  | k + 1 => by simp [idsUpTo, length_idsUpTo k]

lemma le_of_mem_idsUpTo : ∀ (k : Nat) (x : Int), x ∈ idsUpTo k → x ≤ k
  | 0, x, hx => by simp [idsUpTo] at hx
  | k + 1, x, hx => by
      rw [idsUpTo, List.mem_append] at hx
      rcases hx with hx | hx
      · have := le_of_mem_idsUpTo k x hx
        push_cast
        omega
      · simp at hx
        push_cast
        omega

lemma countFid_of_ids {media : List MediaRow} {fid : Int} {k : Nat}
    (h : mediaIdsFor media fid = idsUpTo k) : countFid media fid = k := by
  have h' := congrArg List.length h
  rw [length_idsUpTo] at h'
  simpa [mediaIdsFor, countFid] using h'

lemma mediaHasKey_next_false {media : List MediaRow} {fid : Int} {k : Nat}
    (h : mediaIdsFor media fid = idsUpTo k) :
    mediaHasKey media fid ((k : Int) + 1) = false := by
  rw [mediaHasKey, List.any_eq_false]
  intro m hm
  simp only [Bool.and_eq_true, beq_iff_eq, not_and]
  intro hfid hmid
  have hmem : m.media_id ∈ mediaIdsFor media fid := by
    rw [mediaIdsFor]
    exact List.mem_map_of_mem _ (List.mem_filter.2 ⟨hm, by simp [hfid]⟩)
  rw [h] at hmem
  have := le_of_mem_idsUpTo k m.media_id hmem
  omega

lemma insert_media_ids {media : List MediaRow} {fid : Int} {k : Nat}
    (h : mediaIdsFor media fid = idsUpTo k) (a b c d : String) :
    mediaIdsFor (insert_media media fid a b c d) fid = idsUpTo (k + 1) := by
  rw [insert_media]
  have hnext : nextMediaId media fid = (k : Int) + 1 := by
    rw [nextMediaId, countFid_of_ids h]
  rw [hnext, mediaHasKey_next_false h]
  simp only [Bool.false_eq_true, if_false]
  rw [mediaIdsFor, List.filter_append, List.map_append, ← mediaIdsFor, h]
  rw [idsUpTo]
  simp [mediaIdsFor]

lemma insertMediaList_ids {fid : Int} :
    ∀ (items : List MediaInput) (media : List MediaRow) (k : Nat),
      mediaIdsFor media fid = idsUpTo k →
      mediaIdsFor (insertMediaList media fid items) fid =
        idsUpTo (k + items.length)
  | [], media, k, h => by simpa [insertMediaList] using h
  | it :: rest, media, k, h => by
      rw [insertMediaList]
      have := insertMediaList_ids rest
        (insert_media media fid it.media_type it.media_url it.file_path it.media_path)
        (k + 1) (insert_media_ids h _ _ _ _)
      rw [this]
      congr 1
      simp only [List.length_cons]
      omega

lemma foldr_max_idsUpTo : ∀ (k : Nat) (a : Int), 0 ≤ a →
    (idsUpTo k).foldr max a = max a k
  | 0, a, ha => by
      simp only [idsUpTo, List.foldr_nil, Nat.cast_zero]
      omega
  | k + 1, a, ha => by
      rw [idsUpTo, List.foldr_append]
      simp only [List.foldr_cons, List.foldr_nil]
      rw [foldr_max_idsUpTo k (max ((k : Int) + 1) a) (by omega)]
      push_cast
      omega

/-- Claim C6: starting from a table with no media rows for this feed_id,
inserting N media rows yields media_id values 1 through N with no gaps, in
insertion order; and at every intermediate step the id the insert statement
assigns equals the current maximum media_id for that feed_id plus one
(1 when no row exists yet, since the maximum defaults to 0). -/
theorem c6_media_numbering (prior : List MediaRow) (fid : Int)
    (items : List MediaInput) (h : mediaIdsFor prior fid = []) :
    mediaIdsFor (insertMediaList prior fid items) fid = idsUpTo items.length ∧
    ∀ pre suf, items = pre ++ suf →
      nextMediaId (insertMediaList prior fid pre) fid =
        maxIdFor (insertMediaList prior fid pre) fid + 1 := by
  have h0 : mediaIdsFor prior fid = idsUpTo 0 := by simpa [idsUpTo] using h
  constructor
  · simpa using insertMediaList_ids items prior 0 h0
  · intro pre suf hsplit
    have hpre : mediaIdsFor (insertMediaList prior fid pre) fid =
        idsUpTo pre.length := by
      simpa using insertMediaList_ids pre prior 0 h0
    rw [nextMediaId, countFid_of_ids hpre, maxIdFor, hpre,
      foldr_max_idsUpTo pre.length 0 le_rfl]
    omega

def c6item1 : MediaInput := ⟨"Image", "http://img/x.jpg", "a.zip", "img/x.jpg"⟩

def c6item2 : MediaInput := ⟨"Video", "http://img/v.mp4", "a.zip", "img/v.mp4"⟩

/-- Witness for c6_media_numbering: two inserts against an empty table. -/
theorem c6_media_numbering_witness :
    mediaIdsFor (insertMediaList [] 42 [c6item1, c6item2]) 42 =
      idsUpTo [c6item1, c6item2].length ∧
    ∀ pre suf, [c6item1, c6item2] = pre ++ suf →
      nextMediaId (insertMediaList [] 42 pre) 42 =
        maxIdFor (insertMediaList [] 42 pre) 42 + 1 :=
  c6_media_numbering [] 42 [c6item1, c6item2] rfl

/-! ## C10: user_name is stored ASCII-lowercased -/

/-- Rust char::is_ascii_uppercase, the property to_ascii_lowercase clears. -/
def isAsciiUpper (c : Char) : Bool := 65 ≤ c.toNat && c.toNat ≤ 90

lemma toNat_ofNat_valid (n : Nat) (h : n.isValidChar) :
    (Char.ofNat n).toNat = n := by
  rw [Char.ofNat, dif_pos h]
  rfl

lemma isAsciiUpper_toLower (c : Char) : isAsciiUpper c.toLower = false := by
  rw [Char.toLower]
  by_cases h : c.toNat >= 65 ∧ c.toNat <= 90
  · rw [if_pos h]
    have hv : (c.toNat + 32).isValidChar := Or.inl (by omega)
    rw [isAsciiUpper, toNat_ofNat_valid _ hv]
    simp only [Bool.and_eq_false_iff, decide_eq_false_iff_not]
    right
    omega
  · rw [if_neg h]
    rw [isAsciiUpper]
    simp only [Bool.and_eq_false_iff, decide_eq_false_iff_not]
    omega

/-- A string containing no ASCII uppercase letter, i.e. one already
ASCII-lowercased. -/
def lowerStr (s : String) : Bool := s.data.all (fun c => !(isAsciiUpper c))

lemma lowerStr_asciiLower (s : String) : lowerStr (asciiLower s) = true := by
  rw [lowerStr, asciiLower]
  show (s.data.map Char.toLower).all _ = true
  simp only [List.all_eq_true, List.mem_map]
  rintro c ⟨c0, _, rfl⟩
  simp [isAsciiUpper_toLower]

/-- Every feeds row of the store has an ASCII-lowercased user_name. -/
def feedsLowerB (db : Db) : Bool :=
  db.feeds.all (fun r => lowerStr r.user_name)

lemma feedsInsert_lower {feeds : List FeedRow} {r : FeedRow}
    (hall : feeds.all (fun x => lowerStr x.user_name) = true)
    (hr : lowerStr r.user_name = true) :
    (feedsInsert feeds r).all (fun x => lowerStr x.user_name) = true := by
  rw [feedsInsert]
  split
  · exact hall
  · rw [List.all_append]
    simp [hall, hr]

lemma process_csv_record_lower {rec : FeedCsvRecord} {origin zip : String}
    {off : Int} {db db' : Db}
    (horig : lowerStr origin = true) (hdb : feedsLowerB db = true)
    (h : process_csv_record rec origin zip off db = some db') :
    feedsLowerB db' = true := by
  rw [process_csv_record] at h
  cases hid : extractFeedId rec.twitter_url with
  | none =>
      rw [hid] at h
      exact Option.some.inj h ▸ hdb
  | some id =>
      rw [hid] at h
      cases hf : str_to_timestamp rec.feed_date off with
      | none =>
          rw [hf] at h
          exact Option.noConfusion h
      | some fat =>
          rw [hf] at h
          cases ha : str_to_timestamp rec.action_date off with
          | none =>
              rw [ha] at h
              refine Option.some.inj h ▸ ?_
              rw [feedsLowerB]
              exact feedsInsert_lower hdb (lowerStr_asciiLower _)
          | some aat =>
              rw [ha] at h
              refine Option.some.inj h ▸ ?_
              rw [feedsLowerB]
              exact feedsInsert_lower
                (feedsInsert_lower hdb (lowerStr_asciiLower _)) horig

lemma processCsvGo_lower :
    ∀ (trecords : List (Option FeedCsvRecord)) (count : Nat)
      (origin zip : String) (off : Int) (db db' : Db),
      lowerStr origin = true → feedsLowerB db = true →
      processCsvGo trecords count origin zip off db = some db' →
      feedsLowerB db' = true
  | [], _, _, _, _, _, _, _, hdb, h => by
      rw [processCsvGo] at h
      exact Option.some.inj h ▸ hdb
  | none :: rest, count, origin, zip, off, db, db', ho, hdb, h => by
      rw [processCsvGo] at h
      exact processCsvGo_lower rest _ _ _ _ _ _ ho hdb h
  | some rec :: rest, count, origin, zip, off, db, db', ho, hdb, h => by
      rw [processCsvGo] at h
      have ho' : lowerStr (if count + 1 = 3 then asciiLower rec.action_date
          else origin) = true := by
        split
        · exact lowerStr_asciiLower _
        · exact ho
      by_cases h6 : count + 1 > 6
      · rw [if_pos h6] at h
        cases hp : process_csv_record rec
            (if count + 1 = 3 then asciiLower rec.action_date else origin)
            zip off db with
        | none =>
            rw [hp] at h
            exact Option.noConfusion h
        | some dbm =>
            rw [hp] at h
            exact processCsvGo_lower rest _ _ _ _ _ _ ho'
              (process_csv_record_lower ho' hdb hp) h
      · rw [if_neg h6] at h
        exact processCsvGo_lower rest _ _ _ _ _ _ ho' hdb h

lemma scanEntry_lower (trecords : List (Option FeedCsvRecord)) (zip : String)
    (off : Int) (db : Db) (hdb : feedsLowerB db = true) :
    feedsLowerB (scanEntry trecords zip off db).1 = true := by
  rw [scanEntry]
  cases h : processCsvGo trecords 0 "" zip off db with
  | none => exact hdb
  | some db' => exact processCsvGo_lower _ _ _ _ _ _ _ (by decide) hdb h

lemma scanEntries_lower :
    ∀ (entries : List (List (Option FeedCsvRecord))) (zip : String) (off : Int)
      (db : Db), feedsLowerB db = true →
      feedsLowerB (scanEntries entries zip off db).1 = true
  | [], _, _, _, hdb => hdb
  | e :: rest, zip, off, db, hdb => by
      rw [scanEntries]
      have h1 := scanEntry_lower e zip off db hdb
      cases hse : scanEntry e zip off db with
      | mk db1 b1 =>
          rw [hse] at h1
          cases b1 with
          | false => exact scanEntries_lower rest zip off db1 h1
          | true => exact h1

lemma scanLoop_lower (arch : String → Option (List (List (Option FeedCsvRecord))))
    (off : Int) :
    ∀ (fuel : Nat) (st : ScanState), feedsLowerB st.db = true →
      feedsLowerB (scanLoop arch off fuel st).1.db = true
  | 0, _, h => h
  | fuel + 1, st, h => by
      rw [scanLoop]
      cases hfind : st.files.find? (fun f => !f.scan_started) with
      | none => exact h
      | some fr =>
          dsimp only
          cases harch : arch fr.file_path with
          | none => exact h
          | some entries =>
              dsimp only
              have h1 := scanEntries_lower entries fr.file_path off st.db h
              cases hse : scanEntries entries fr.file_path off st.db with
              | mk db' b =>
                  rw [hse] at h1
                  dsimp only at h1
                  cases b with
                  | false =>
                      dsimp only
                      exact scanLoop_lower arch off fuel _ h1
                  | true => exact h1

/-- Claim C10: ingestion only ever writes ASCII-lowercased user_name values
into the feeds table — the plain and retweet inserts lowercase the row's
user_name, and the origin captured from row 3's action_date is lowercased
when captured — so after any scan loop run from a store whose feeds rows
all have lowercased user_name, every feeds row still has a lowercased
user_name, whatever letter case the CSV used. -/
theorem c10_user_name_lowercased
    (arch : String → Option (List (List (Option FeedCsvRecord))))
    (off : Int) (fuel : Nat) (st : ScanState)
    (h : feedsLowerB st.db = true) :
    feedsLowerB (scanLoop arch off fuel st).1.db = true :=
  scanLoop_lower arch off fuel st h

def c10rec : FeedCsvRecord :=
  ⟨"2020/01/01 00:00:00", "2020/01/02 00:00:00", "BoB",
    "https://twitter.com/BoB/status/42", "", "", "", "hi"⟩

def c10rec3 : FeedCsvRecord :=
  ⟨"", "CaRoL", "x", "", "", "", "", ""⟩

def c10arch : String → Option (List (List (Option FeedCsvRecord))) :=
  fun _ => some [[none, none, some c10rec3, none, none, none, some c10rec]]

/-- Witness for c10_user_name_lowercased: one archive with an uppercase CSV
user and uppercase origin row. -/
theorem c10_user_name_lowercased_witness :
    feedsLowerB (scanLoop c10arch 0 2
      ⟨[⟨"a.zip", false, false⟩], emptyDb, 1⟩).1.db = true :=
  c10_user_name_lowercased c10arch 0 2
    ⟨[⟨"a.zip", false, false⟩], emptyDb, 1⟩ (by decide)

/-! ## C7 (amended): re-scanning never changes the feeds table

The feed upserts are INSERT OR IGNORE keyed on feed_id, and whether a
record panics or which keys it attempts depends only on the record, so a
second pass over the same records attempts only keys the first pass already
made present. -/

/-- The feeds keys one record's processing attempts to upsert. -/
def recKeys (rec : FeedCsvRecord) (off : Int) : List Int :=
  match extractFeedId rec.twitter_url with
  | none => []
  | some id =>
      id :: (if (str_to_timestamp rec.action_date off).isSome then [0] else [])

/-- A record panics exactly when it has a feed_id and its feed_date does
not parse; this predicate says it does not panic. -/
def recNoPanic (rec : FeedCsvRecord) (off : Int) : Bool :=
  (extractFeedId rec.twitter_url).isNone ||
    (str_to_timestamp rec.feed_date off).isSome

/-- All feeds keys a record stream attempts (data records only). -/
def attemptedKeys (off : Int) : List (Option FeedCsvRecord) → Nat → List Int
  | [], _ => []
  | none :: rest, count => attemptedKeys off rest (count + 1)
  | some rec :: rest, count =>
      (if count + 1 > 6 then recKeys rec off else []) ++
        attemptedKeys off rest (count + 1)

/-- No data record of the stream panics. -/
def noPanicAll (off : Int) : List (Option FeedCsvRecord) → Nat → Bool
  | [], _ => true
  | none :: rest, count => noPanicAll off rest (count + 1)
  | some rec :: rest, count =>
      (if count + 1 > 6 then recNoPanic rec off else true) &&
        noPanicAll off rest (count + 1)

lemma hasFeedKey_feedsInsert_self (feeds : List FeedRow) (r : FeedRow) :
    hasFeedKey (feedsInsert feeds r) r.feed_id = true := by
  rw [feedsInsert]
  split
  · next hc => exact hc
  · simp [hasFeedKey, List.any_append]

lemma hasFeedKey_feedsInsert_mono (feeds : List FeedRow) (r : FeedRow) (k : Int)
    (h : hasFeedKey feeds k = true) :
    hasFeedKey (feedsInsert feeds r) k = true := by
  rw [feedsInsert]
  split
  · exact h
  · rw [hasFeedKey] at h ⊢
    rw [List.any_append]
    simp [h]

lemma feedsInsert_of_present {feeds : List FeedRow} {r : FeedRow}
    (h : hasFeedKey feeds r.feed_id = true) : feedsInsert feeds r = feeds := by
  rw [feedsInsert, if_pos h]

lemma process_csv_record_mono {rec : FeedCsvRecord} {origin zip : String}
    {off : Int} {db db' : Db} {k : Int}
    (h : process_csv_record rec origin zip off db = some db')
    (hk : hasFeedKey db.feeds k = true) : hasFeedKey db'.feeds k = true := by
  rw [process_csv_record] at h
  cases hid : extractFeedId rec.twitter_url with
  | none =>
      rw [hid] at h
      exact Option.some.inj h ▸ hk
  | some id =>
      rw [hid] at h
      cases hf : str_to_timestamp rec.feed_date off with
      | none =>
          rw [hf] at h
          exact Option.noConfusion h
      | some fat =>
          rw [hf] at h
          cases ha : str_to_timestamp rec.action_date off with
          | none =>
              rw [ha] at h
              refine Option.some.inj h ▸ ?_
              exact hasFeedKey_feedsInsert_mono _ _ _ hk
          | some aat =>
              rw [ha] at h
              refine Option.some.inj h ▸ ?_
              exact hasFeedKey_feedsInsert_mono _ _ _
                (hasFeedKey_feedsInsert_mono _ _ _ hk)

lemma process_csv_record_keys {rec : FeedCsvRecord} {origin zip : String}
    {off : Int} {db db' : Db}
    (h : process_csv_record rec origin zip off db = some db') :
    ∀ k ∈ recKeys rec off, hasFeedKey db'.feeds k = true := by
  intro k hkmem
  rw [recKeys] at hkmem
  rw [process_csv_record] at h
  cases hid : extractFeedId rec.twitter_url with
  | none =>
      rw [hid] at hkmem
      simp at hkmem
  | some id =>
      rw [hid] at h hkmem
      cases hf : str_to_timestamp rec.feed_date off with
      | none =>
          rw [hf] at h
          exact Option.noConfusion h
      | some fat =>
          rw [hf] at h
          cases ha : str_to_timestamp rec.action_date off with
          | none =>
              rw [ha] at h hkmem
              simp at hkmem
              refine Option.some.inj h ▸ ?_
              subst hkmem
              exact hasFeedKey_feedsInsert_self db.feeds _
          | some aat =>
              rw [ha] at h hkmem
              simp at hkmem
              refine Option.some.inj h ▸ ?_
              rcases hkmem with rfl | rfl
              · exact hasFeedKey_feedsInsert_mono _ _ _
                  (hasFeedKey_feedsInsert_self db.feeds
                    ⟨k, asciiLower rec.user_name, 0, "", fat, rec.twitter_url,
                      some rec.content⟩)
              · exact hasFeedKey_feedsInsert_self _
                  ⟨0, origin, id, asciiLower rec.user_name, aat,
                    rec.twitter_url, none⟩

lemma process_csv_record_noPanic {rec : FeedCsvRecord} {origin zip : String}
    {off : Int} {db db' : Db}
    (h : process_csv_record rec origin zip off db = some db') :
    recNoPanic rec off = true := by
  rw [recNoPanic]
  rw [process_csv_record] at h
  cases hid : extractFeedId rec.twitter_url with
  | none => simp [hid]
  | some id =>
      rw [hid] at h
      cases hf : str_to_timestamp rec.feed_date off with
      | none =>
          rw [hf] at h
          exact Option.noConfusion h
      | some fat => simp [hf]

lemma process_csv_record_noop {rec : FeedCsvRecord} {origin zip : String}
    {off : Int} {db : Db}
    (hnp : recNoPanic rec off = true)
    (hk : ∀ k ∈ recKeys rec off, hasFeedKey db.feeds k = true) :
    ∃ db', process_csv_record rec origin zip off db = some db' ∧
      db'.feeds = db.feeds := by
  rw [process_csv_record]
  cases hid : extractFeedId rec.twitter_url with
  | none => exact ⟨db, rfl, rfl⟩
  | some id =>
      rw [recNoPanic, hid] at hnp
      simp only [Option.isNone_some, Bool.false_or] at hnp
      cases hf : str_to_timestamp rec.feed_date off with
      | none => rw [hf] at hnp; simp at hnp
      | some fat =>
          rw [recKeys, hid] at hk
          cases ha : str_to_timestamp rec.action_date off with
          | none =>
              have hkid : hasFeedKey db.feeds id = true := by
                refine hk id ?_
                simp
              refine ⟨_, rfl, ?_⟩
              exact feedsInsert_of_present hkid
          | some aat =>
              rw [ha] at hk
              simp only [Option.isSome_some, if_pos] at hk
              have hkid : hasFeedKey db.feeds id = true := by
                refine hk id ?_
                simp
              have hk0 : hasFeedKey db.feeds 0 = true := by
                refine hk 0 ?_
                simp
              refine ⟨_, rfl, ?_⟩
              rw [feedsInsert_of_present (r :=
                ⟨id, asciiLower rec.user_name, 0, "", fat, rec.twitter_url,
                  some rec.content⟩) hkid]
              exact feedsInsert_of_present hk0

lemma processCsvGo_mono :
    ∀ (trecords : List (Option FeedCsvRecord)) (count : Nat)
      (origin zip : String) (off : Int) (db db' : Db) (k : Int),
      processCsvGo trecords count origin zip off db = some db' →
      hasFeedKey db.feeds k = true → hasFeedKey db'.feeds k = true
  | [], _, _, _, _, _, _, _, h, hk => Option.some.inj h ▸ hk
  | none :: rest, count, origin, zip, off, db, db', k, h, hk => by
      rw [processCsvGo] at h
      exact processCsvGo_mono rest _ _ _ _ _ _ _ h hk
  | some rec :: rest, count, origin, zip, off, db, db', k, h, hk => by
      rw [processCsvGo] at h
      by_cases h6 : count + 1 > 6
      · rw [if_pos h6] at h
        cases hp : process_csv_record rec
            (if count + 1 = 3 then asciiLower rec.action_date else origin)
            zip off db with
        | none =>
            rw [hp] at h
            exact Option.noConfusion h
        | some dbm =>
            rw [hp] at h
            exact processCsvGo_mono rest _ _ _ _ _ _ _ h
              (process_csv_record_mono hp hk)
      · rw [if_neg h6] at h
        exact processCsvGo_mono rest _ _ _ _ _ _ _ h hk

lemma processCsvGo_keys :
    ∀ (trecords : List (Option FeedCsvRecord)) (count : Nat)
      (origin zip : String) (off : Int) (db db' : Db),
      processCsvGo trecords count origin zip off db = some db' →
      ∀ k ∈ attemptedKeys off trecords count, hasFeedKey db'.feeds k = true
  | [], _, _, _, _, _, _, _, k, hkmem => by
      rw [attemptedKeys] at hkmem
      simp at hkmem
  | none :: rest, count, origin, zip, off, db, db', h, k, hkmem => by
      rw [processCsvGo] at h
      rw [attemptedKeys] at hkmem
      exact processCsvGo_keys rest _ _ _ _ _ _ h k hkmem
  | some rec :: rest, count, origin, zip, off, db, db', h, k, hkmem => by
      rw [processCsvGo] at h
      rw [attemptedKeys] at hkmem
      rw [List.mem_append] at hkmem
      by_cases h6 : count + 1 > 6
      · rw [if_pos h6] at h hkmem
        cases hp : process_csv_record rec
            (if count + 1 = 3 then asciiLower rec.action_date else origin)
            zip off db with
        | none =>
            rw [hp] at h
            exact Option.noConfusion h
        | some dbm =>
            rw [hp] at h
            rcases hkmem with hkmem | hkmem
            · exact processCsvGo_mono rest _ _ _ _ _ _ _ h
                (process_csv_record_keys hp k hkmem)
            · exact processCsvGo_keys rest _ _ _ _ _ _ h k hkmem
      · rw [if_neg h6] at h hkmem
        rcases hkmem with hkmem | hkmem
        · simp at hkmem
        · exact processCsvGo_keys rest _ _ _ _ _ _ h k hkmem

lemma processCsvGo_noPanicAll :
    ∀ (trecords : List (Option FeedCsvRecord)) (count : Nat)
      (origin zip : String) (off : Int) (db db' : Db),
      processCsvGo trecords count origin zip off db = some db' →
      noPanicAll off trecords count = true
  | [], _, _, _, _, _, _, _ => rfl
  | none :: rest, count, origin, zip, off, db, db', h => by
      rw [processCsvGo] at h
      rw [noPanicAll]
      exact processCsvGo_noPanicAll rest _ _ _ _ _ _ h
  | some rec :: rest, count, origin, zip, off, db, db', h => by
      rw [processCsvGo] at h
      rw [noPanicAll]
      by_cases h6 : count + 1 > 6
      · rw [if_pos h6] at h ⊢
        cases hp : process_csv_record rec
            (if count + 1 = 3 then asciiLower rec.action_date else origin)
            zip off db with
        | none =>
            rw [hp] at h
            exact Option.noConfusion h
        | some dbm =>
            rw [hp] at h
            rw [process_csv_record_noPanic hp, Bool.true_and]
            exact processCsvGo_noPanicAll rest _ _ _ _ _ _ h
      · rw [if_neg h6] at h ⊢
        rw [Bool.true_and]
        exact processCsvGo_noPanicAll rest _ _ _ _ _ _ h

lemma processCsvGo_noop :
    ∀ (trecords : List (Option FeedCsvRecord)) (count : Nat)
      (origin zip : String) (off : Int) (db : Db),
      noPanicAll off trecords count = true →
      (∀ k ∈ attemptedKeys off trecords count, hasFeedKey db.feeds k = true) →
      (processCsvGo trecords count origin zip off db).map Db.feeds =
        some db.feeds
  | [], _, _, _, _, _, _, _ => rfl
  | none :: rest, count, origin, zip, off, db, hnp, hk => by
      rw [processCsvGo]
      rw [noPanicAll] at hnp
      rw [attemptedKeys] at hk
      exact processCsvGo_noop rest _ _ _ _ _ hnp hk
  | some rec :: rest, count, origin, zip, off, db, hnp, hk => by
      rw [processCsvGo]
      rw [noPanicAll] at hnp
      by_cases h6 : count + 1 > 6
      · rw [if_pos h6] at hnp ⊢
        rw [Bool.and_eq_true] at hnp
        have hkrec : ∀ k ∈ recKeys rec off, hasFeedKey db.feeds k = true := by
          intro k hkm
          refine hk k ?_
          rw [attemptedKeys, if_pos h6, List.mem_append]
          exact Or.inl hkm
        obtain ⟨dbm, hdbm, hfeeds⟩ := @process_csv_record_noop rec
          (if count + 1 = 3 then asciiLower rec.action_date else origin)
          zip off db hnp.1 hkrec
        rw [hdbm]
        have hkrest : ∀ k ∈ attemptedKeys off rest (count + 1),
            hasFeedKey dbm.feeds k = true := by
          intro k hkm
          rw [hfeeds]
          refine hk k ?_
          rw [attemptedKeys, if_pos h6, List.mem_append]
          exact Or.inr hkm
        have := processCsvGo_noop rest (count + 1)
          (if count + 1 = 3 then asciiLower rec.action_date else origin)
          zip off dbm hnp.2 hkrest
        rw [this, hfeeds]
      · rw [if_neg h6] at hnp ⊢
        rw [Bool.true_and] at hnp
        have hkrest : ∀ k ∈ attemptedKeys off rest (count + 1),
            hasFeedKey db.feeds k = true := by
          intro k hkm
          refine hk k ?_
          rw [attemptedKeys, if_neg h6, List.mem_append]
          exact Or.inr hkm
        exact processCsvGo_noop rest _ _ _ _ _ hnp hkrest

/-- Claim C7 (amended): re-running the reconciler over the same CSV records
leaves the feeds table exactly as the first pass left it (every feed upsert
of the second pass collides and is ignored, and a record stream that
panicked left the store rolled back both times), but the media table is not
preserved: each media-bearing row is appended again under the next media_id
(see the counterexample), so only the Feed set is idempotent. -/
theorem c7_rescan_feeds_idempotent (trecords : List (Option FeedCsvRecord))
    (zip : String) (off : Int) (db : Db) :
    (scanEntry trecords zip off (scanEntry trecords zip off db).1).1.feeds =
      (scanEntry trecords zip off db).1.feeds := by
  cases h : processCsvGo trecords 0 "" zip off db with
  | none =>
      have e1 : scanEntry trecords zip off db = (db, true) := by
        rw [scanEntry, h]
      rw [e1]
      show (scanEntry trecords zip off db).1.feeds = db.feeds
      rw [e1]
  | some db1 =>
      have e1 : scanEntry trecords zip off db = (db1, false) := by
        rw [scanEntry, h]
      rw [e1]
      show (scanEntry trecords zip off db1).1.feeds = db1.feeds
      have hnp := processCsvGo_noPanicAll trecords 0 "" zip off db db1 h
      have hkeys := processCsvGo_keys trecords 0 "" zip off db db1 h
      have hmap := processCsvGo_noop trecords 0 "" zip off db1 hnp hkeys
      cases h2 : processCsvGo trecords 0 "" zip off db1 with
      | none =>
          rw [h2] at hmap
          exact Option.noConfusion hmap
      | some db2 =>
          rw [h2] at hmap
          rw [scanEntry, h2]
          exact Option.some.inj hmap

end TmdViewer
